import Mathlib

/-!
Verification of the phenocover paginated SensorThings API fetcher
(`src/phenocover/utils.py`), the CLI input validation of `plots fetch`
(`src/phenocover/cli.py`), and the singleton `Logger`
(`src/phenocover/logging.py`).

The network is modelled as a deterministic server: a function from URL
strings to HTTP results as observed by the Python code. Machine-level
details (sockets, status codes) are abstracted to the branch structure the
code actually distinguishes: `requests.get(url)` followed by
`response.raise_for_status()` either raises `requests.exceptions.RequestException`
(transport failure or error HTTP status) or yields a response body, which
`response.json()` either fails to parse or parses into a JSON object; the
code then reads the optional `value` array and optional `@iot.nextLink`
string of that object. Entities are opaque, hence the type parameter `α`.
-/

namespace Phenocover

/-- A parsed JSON page as the code reads it: an optional `value` array of
opaque entities (`none` when the `value` key is absent) and an optional
`@iot.nextLink` string (`none` when the key is absent; `some ""` is a
present-but-empty link, which Python truthiness treats as absent). -/
structure Page (α : Type) where
  value : Option (List α)
  nextLink : Option String
deriving DecidableEq, Repr

/-- The body of an HTTP response: either not valid JSON, or a parsed page. -/
inductive RespBody (α : Type) where
  | malformed
  | json (page : Page α)
deriving DecidableEq, Repr

/-- The result of `requests.get(url)` + `response.raise_for_status()` as the
code observes it: `failure` when a `RequestException` is raised (connection
failure or error status), `success body` otherwise. -/
inductive HttpResponse (α : Type) where
  | failure
  | success (body : RespBody α)
deriving DecidableEq, Repr

/-- A deterministic static server: each URL always yields the same response. -/
def Server (α : Type) : Type := String → HttpResponse α

/-- Outcome of one `fetch_data(url)` call (utils.py lines 50-65):
`exited` models the `except RequestException` branch (log + `sys.exit(1)`);
`parseError` models `response.json()` raising outside the `try` block
(the exception propagates uncaught); `ok page` is a normal return carrying
the parsed body. -/
inductive FetchDataResult (α : Type) where
  | exited
  | parseError
  | ok (page : Page α)
deriving DecidableEq, Repr

/-- Embedding of `fetch_data` (utils.py lines 50-65). `response = None` is
initialised, `requests.get` + `raise_for_status` run inside `try`; a
`RequestException` is logged and the process exits with code 1, so a normal
return always reaches `return response.json()`, which parses the body or
raises an uncaught `JSONDecodeError`. -/
def fetch_data {α : Type} (server : Server α) (url : String) : FetchDataResult α :=
  match server url with
  | .failure => .exited
  | .success .malformed => .parseError
  | .success (.json page) => .ok page

/-- Python truthiness of `data.get('@iot.nextLink')`: the loop continues
exactly when the key is present with a non-empty string. -/
def effLink : Option String → Option String
  | none => none
  | some s => if s = "" then none else some s

/-- Overall outcome of `fetch_sensorthingsapi`: `ok l` is a normal return of
the accumulated entity list; `exited` is `sys.exit(1)` from `fetch_data`;
`parseError` is an uncaught JSON decode exception; `keyError` is an uncaught
`KeyError` from `data['value']` when the key is absent; `diverged` marks
fuel exhaustion, modelling the unbounded loop on a server that keeps
returning next-links. -/
inductive FetchOutcome (α : Type) where
  | ok (entities : List α)
  | exited
  | parseError
  | keyError
  | diverged
deriving DecidableEq, Repr

/-- Result of a fetch together with the trace of URLs GET-requested, in
order. Every URL in `requests` was passed to `fetch_data`. -/
structure FetchResult (α : Type) where
  outcome : FetchOutcome α
  requests : List String
deriving DecidableEq, Repr

/-- The `while data.get('@iot.nextLink'):` loop of `fetch_sensorthingsapi`
(utils.py lines 81-84). `data` is the current page, `acc` the accumulated
`fetched_entities`, `reqs` the URLs requested so far, `fuel` bounds the
number of further iterations (the Python loop has no such bound; exhausting
fuel yields `diverged`). Each iteration fetches `data['@iot.nextLink']` and
extends the accumulator with `data['value']` of the new page (`KeyError`
when absent). -/
def fetchLoop {α : Type} (server : Server α) :
    Page α → List α → List String → Nat → FetchResult α
  | data, acc, reqs, fuel =>
    match effLink data.nextLink with
    | none => ⟨.ok acc, reqs⟩
    | some link =>
      match fuel with
      | 0 => ⟨.diverged, reqs⟩
      | fuel' + 1 =>
        match fetch_data server link with
        | .exited => ⟨.exited, reqs ++ [link]⟩
        | .parseError => ⟨.parseError, reqs ++ [link]⟩
        | .ok page =>
          match page.value with
          | none => ⟨.keyError, reqs ++ [link]⟩
          | some vs => fetchLoop server page (acc ++ vs) (reqs ++ [link]) fuel'

/-- Embedding of `fetch_sensorthingsapi` (utils.py lines 68-85):
`data = fetch_data(url)`, `fetched_entities = data['value']` (a `KeyError`
when the key is absent), then the next-link loop. `fuel` bounds loop
iterations after the first page. -/
def fetch_sensorthingsapi {α : Type} (server : Server α) (url : String)
    (fuel : Nat) : FetchResult α :=
  match fetch_data server url with
  | .exited => ⟨.exited, [url]⟩
  | .parseError => ⟨.parseError, [url]⟩
  | .ok page =>
    match page.value with
    | none => ⟨.keyError, [url]⟩
    | some vs => fetchLoop server page vs [url] fuel

/-- A chain of further pages reachable from a given (effective) next link:
each entry `(u, vs, next)` says the server maps `u` to a well-formed JSON
page with `value = vs` and next link `next`; the chain ends when the
effective link is absent. -/
def chainFrom {α : Type} (server : Server α) :
    Option String → List (String × List α × Option String) → Prop
  | link, [] => effLink link = none
  | link, (u, vs, next) :: rest =>
    effLink link = some u ∧
    server u = .success (.json ⟨some vs, next⟩) ∧
    chainFrom server next rest

/-- A complete finite page chain starting at the initial URL: the first
entry is the initial request, subsequent entries follow the next links. -/
def chainStart {α : Type} (server : Server α) (url : String) :
    List (String × List α × Option String) → Prop
  | [] => False
  | (u, vs, next) :: rest =>
    u = url ∧
    server url = .success (.json ⟨some vs, next⟩) ∧
    chainFrom server next rest

/-! Concrete servers used by witnesses and counterexamples. -/

/-- A two-page server: page 1 at `u1` with entities `[1,2]` linking to `u2`,
page 2 at `u2` with entities `[3]` and no next link. -/
def srv2 : Server Nat := fun u =>
  if u = "u1" then .success (.json ⟨some [1, 2], some "u2"⟩)
  else if u = "u2" then .success (.json ⟨some [3], none⟩)
  else .failure

/-- A single-page server: `[10, 11, 12]` at `a`, no next link. -/
def srv1 : Server Nat := fun u =>
  if u = "a" then .success (.json ⟨some [10, 11, 12], none⟩) else .failure

/-- A server whose single page parses to JSON but has no `value` key. -/
def srvNoVal : Server Nat := fun _ => .success (.json ⟨none, none⟩)

/-- A server whose response body is not valid JSON. -/
def srvBad : Server Nat := fun _ => .success .malformed

/-- A server on which every request fails at the transport/HTTP level. -/
def srvFail : Server Nat := fun _ => .failure

/-- A misbehaving server: every page carries a non-empty next link. -/
def srvLoop : Server Nat := fun _ => .success (.json ⟨some [7], some "n"⟩)

/-- The `value` list a given HTTP response contributes: the parsed page's
`value` entities, or `[]` when the response is not a well-formed page. Used
to state that a normal fetch returns the complete concatenation. -/
def pageValues {α : Type} (r : HttpResponse α) : List α :=
  match r with
  | .success (.json page) =>
    match page.value with
    | some vs => vs
    | none => []
  | _ => []

/-! CLI input validation of `plots fetch` (cli.py lines 93-161). Typer
passes `None` for an option the user did not supply; the code branches on
Python truthiness of the three option values, so an empty string behaves
like an absent option. -/

/-- Python truthiness of an optional CLI string value. -/
def truthy : Option String → Bool
  | none => false
  | some s => !s.isEmpty

/-- Outcome of the `plots fetch` command body up to its validation:
`configError` is the `logger.error(...)` + `raise typer.Exit(1)` taken
before the `try` block, so before any configuration loading or fetch work;
the `from...` outcomes record which branch supplies the effective
parameters afterwards. -/
inductive PlotsOutcome where
  | configError
  | fromConfig (cfg : String)
  | fromParams (trial url : String)
deriving DecidableEq, Repr

/-- Embedding of the validation logic of `fetch_plots` (cli.py lines
113-142): exit with code 1 when `--config` is combined with either discrete
parameter, or when `--config` is absent and the two discrete parameters are
not both present; otherwise proceed with the config file or the provided
parameters. -/
def fetch_plots (trial_id sensorthingsapi_url config_file : Option String) :
    PlotsOutcome :=
  if truthy config_file && (truthy trial_id || truthy sensorthingsapi_url) then
    .configError
  else if !truthy config_file &&
      !(truthy trial_id && truthy sensorthingsapi_url) then
    .configError
  else if truthy config_file then
    .fromConfig (config_file.getD "")
  else
    .fromParams (trial_id.getD "") (sensorthingsapi_url.getD "")

/-! The singleton `Logger` (logging.py). Python object identities are
modelled as `Nat` ids handed out by an allocation counter; the state
carries the class attributes `Logger._instance` and `Logger._initialized`,
the instance's `_loggers` cache, and the `logging` module's own global
logger registry (`logging.getLogger` returns the registered logger for a
name or registers a fresh one). -/

/-- Global state of the logging model. -/
structure LoggerState where
  inst : Option Nat
  initDone : Bool
  loggers : List (String × Nat)
  moduleLoggers : List (String × Nat)
  counter : Nat
deriving DecidableEq, Repr

/-- Association-list lookup used for both logger registries. -/
def lookupName : List (String × Nat) → String → Option Nat
  | [], _ => none
  | (k, i) :: rest, n => if k = n then some i else lookupName rest n

/-- Model of `Logger.__new__` (logging.py lines 53-57): create the single instance
on first call, return the stored one afterwards. -/
def loggerNew (s : LoggerState) : Nat × LoggerState :=
  match s.inst with
  | some i => (i, s)
  | none =>
    (s.counter, { s with inst := some s.counter, counter := s.counter + 1 })

/-- Model of `Logger.__init__` (logging.py lines 59-82): guarded by `_initialized`;
on the first run it sets up the console, resets `_loggers` to `{}` and
marks the class initialised, afterwards it does nothing. -/
def loggerInit (s : LoggerState) : LoggerState :=
  if s.initDone then s
  else { s with loggers := [], initDone := true }

/-- A Python construction `Logger()` runs `__new__` then `__init__` on the
returned instance. -/
def loggerConstruct (s : LoggerState) : Nat × LoggerState :=
  let r := loggerNew s
  (r.1, loggerInit r.2)

/-- The stdlib `logging.getLogger(name)`: return the logger registered
under `name` or register a fresh one. -/
def logging_getLogger (s : LoggerState) (name : String) : Nat × LoggerState :=
  match lookupName s.moduleLoggers name with
  | some i => (i, s)
  | none =>
    (s.counter,
     { s with moduleLoggers := (name, s.counter) :: s.moduleLoggers,
              counter := s.counter + 1 })

/-- Model of `Logger.get_logger` (logging.py lines 230-242): look the name up in the
instance's `_loggers` cache, otherwise obtain it from `logging.getLogger`
and cache it. -/
def Logger.get_logger (s : LoggerState) (name : String) : Nat × LoggerState :=
  match lookupName s.loggers name with
  | some i => (i, s)
  | none =>
    let r := logging_getLogger s name
    (r.1, { r.2 with loggers := (name, r.1) :: r.2.loggers })

/-- Key lemma: running the next-link loop from a page whose effective link
heads a finite chain, with enough fuel, returns the accumulator extended by
the chain's values in order, and requests exactly the chain's URLs in
order. -/
theorem fetchLoop_chain {α : Type} (server : Server α) :
    ∀ (entries : List (String × List α × Option String)) (data : Page α)
      (acc : List α) (reqs : List String) (fuel : Nat),
      chainFrom server data.nextLink entries → entries.length ≤ fuel →
      fetchLoop server data acc reqs fuel =
        ⟨.ok (acc ++ (entries.map (fun e => e.2.1)).flatten),
         reqs ++ entries.map (fun e => e.1)⟩ := by
  intro entries
  induction entries with
  | nil =>
    intro data acc reqs fuel h _
    simp only [chainFrom] at h
    simp [fetchLoop, h]
  | cons e rest ih =>
    obtain ⟨u, vs, next⟩ := e
    intro data acc reqs fuel h hfuel
    obtain ⟨hlink, hsrv, hrest⟩ := h
    match fuel, hfuel with
    | fuel' + 1, hfuel =>
      have hf' : rest.length ≤ fuel' := by
        simpa using hfuel
      rw [fetchLoop, hlink]
      simp only [fetch_data, hsrv]
      rw [ih ⟨some vs, next⟩ (acc ++ vs) (reqs ++ [u]) fuel' hrest hf']
      simp

/-- C1: for every finite chain of pages in which page i has value list V_i
and each page's `@iot.nextLink` points to the next page (the last page
having no next link), `fetch_sensorthingsapi initial_url` returns the
concatenation V_1 ++ ... ++ V_n in page order, issuing exactly n GET
requests, the first to the initial URL and each subsequent one to the
previous page's next link (as recorded by the chain). -/
theorem fetch_chain_concatenation {α : Type} (server : Server α) (url : String)
    (vs0 : List α) (next0 : Option String)
    (rest : List (String × List α × Option String)) (fuel : Nat)
    (h : chainStart server url ((url, vs0, next0) :: rest))
    (hfuel : rest.length ≤ fuel) :
    fetch_sensorthingsapi server url fuel =
      ⟨.ok ((((url, vs0, next0) :: rest).map (fun e => e.2.1)).flatten),
       ((url, vs0, next0) :: rest).map (fun e => e.1)⟩ ∧
    (fetch_sensorthingsapi server url fuel).requests.length
      = ((url, vs0, next0) :: rest).length := by
  obtain ⟨-, hsrv, hrest⟩ := h
  have hmain : fetch_sensorthingsapi server url fuel =
      ⟨.ok (vs0 ++ (rest.map (fun e => e.2.1)).flatten),
       [url] ++ rest.map (fun e => e.1)⟩ := by
    rw [fetch_sensorthingsapi]
    simp only [fetch_data, hsrv]
    exact fetchLoop_chain server rest ⟨some vs0, next0⟩ vs0 [url] fuel hrest hfuel
  refine ⟨by simpa using hmain, ?_⟩
  rw [hmain]
  simp

/-- Witness for C1: a single page with value `[10, 11, 12]` and no next
link yields `[10, 11, 12]` after exactly one GET request. -/
theorem fetch_chain_concatenation_witness :
    fetch_sensorthingsapi srv1 "a" 0 =
      ⟨.ok ((([("a", [10, 11, 12], (none : Option String))]).map
              (fun e => e.2.1)).flatten),
       ([("a", [10, 11, 12], (none : Option String))]).map (fun e => e.1)⟩ ∧
    (fetch_sensorthingsapi srv1 "a" 0).requests.length = 1 :=
  fetch_chain_concatenation srv1 "a" [10, 11, 12] none [] 0
    ⟨rfl, by decide, rfl⟩ (by decide)

/-- C2 counterexample: on a single page with no `value` field and no next
link, `fetch_sensorthingsapi` raises an uncaught `KeyError` from
`data['value']`; it does not return the empty collection. -/
theorem fetch_missing_value_counterexample :
    (fetch_sensorthingsapi srvNoVal "u" 0).outcome = .keyError ∧
    (fetch_sensorthingsapi srvNoVal "u" 0).outcome ≠ .ok ([] : List Nat) := by
  decide

/-- C2 amended: a page response lacking the `value` key makes the fetch
raise an uncaught `KeyError` (`data['value']`, utils.py lines 79 and 83)
instead of defaulting to an empty array: on the first page the whole fetch
ends with `keyError` after the single request; inside the loop it ends with
`keyError` right after requesting that page. -/
theorem fetch_missing_value_keyError {α : Type} (server : Server α) :
    (∀ (url : String) (fuel : Nat) (next : Option String),
      server url = .success (.json ⟨none, next⟩) →
      fetch_sensorthingsapi server url fuel = ⟨.keyError, [url]⟩) ∧
    (∀ (data : Page α) (acc : List α) (reqs : List String) (fuel : Nat)
       (link : String) (next : Option String),
      effLink data.nextLink = some link →
      server link = .success (.json ⟨none, next⟩) →
      fetchLoop server data acc reqs (fuel + 1) = ⟨.keyError, reqs ++ [link]⟩) := by
  constructor
  · intro url fuel next h
    rw [fetch_sensorthingsapi]
    simp [fetch_data, h]
  · intro data acc reqs fuel link next hlink h
    rw [fetchLoop, hlink]
    simp [fetch_data, h]

/-- Witness for C2 amended: the concrete no-`value` server ends in
`keyError` after one request. -/
theorem fetch_missing_value_keyError_witness :
    fetch_sensorthingsapi srvNoVal "u" 3 = ⟨.keyError, ["u"]⟩ :=
  (fetch_missing_value_keyError srvNoVal).1 "u" 3 none rfl

/-- C3 counterexample: on a response body that is not valid JSON, the fetch
ends with an uncaught parse exception (`response.json()` on utils.py line
65 is outside the `try` block), not with the logged `sys.exit(1)` error
path the claim describes. -/
theorem fetch_malformed_counterexample :
    (fetch_sensorthingsapi srvBad "u" 0).outcome = .parseError ∧
    (fetch_sensorthingsapi srvBad "u" 0).outcome ≠
      (FetchOutcome.exited : FetchOutcome Nat) := by
  decide

/-- C3 amended: a response body that is not valid JSON makes the fetch
propagate an unhandled JSON parse exception (the `except` clause only
covers `requests.get` and `raise_for_status`): on the first page the whole
fetch ends with `parseError` after the single request; inside the loop it
ends with `parseError` right after requesting that page. -/
theorem fetch_malformed_parseError {α : Type} (server : Server α) :
    (∀ (url : String) (fuel : Nat),
      server url = .success .malformed →
      fetch_sensorthingsapi server url fuel = ⟨.parseError, [url]⟩) ∧
    (∀ (data : Page α) (acc : List α) (reqs : List String) (fuel : Nat)
       (link : String),
      effLink data.nextLink = some link →
      server link = .success .malformed →
      fetchLoop server data acc reqs (fuel + 1) = ⟨.parseError, reqs ++ [link]⟩) := by
  constructor
  · intro url fuel h
    rw [fetch_sensorthingsapi]
    simp [fetch_data, h]
  · intro data acc reqs fuel link hlink h
    rw [fetchLoop, hlink]
    simp [fetch_data, h]

/-- Witness for C3 amended: the concrete malformed-body server ends in
`parseError` after one request. -/
theorem fetch_malformed_parseError_witness :
    fetch_sensorthingsapi srvBad "u" 3 = ⟨.parseError, ["u"]⟩ :=
  (fetch_malformed_parseError srvBad).1 "u" 3 rfl

/-- Helper: if a URL whose request fails appears in the loop's request
trace, then either it was already in the trace before the loop ran, or the
loop ended with `sys.exit(1)` and that URL is the last request issued. -/
theorem fetchLoop_failFast {α : Type} (server : Server α) (v : String)
    (hf : server v = .failure) :
    ∀ (fuel : Nat) (data : Page α) (acc : List α) (reqs : List String),
      v ∈ (fetchLoop server data acc reqs fuel).requests →
      v ∈ reqs ∨
      ((fetchLoop server data acc reqs fuel).outcome = .exited ∧
       (fetchLoop server data acc reqs fuel).requests.getLast? = some v) := by
  intro fuel
  induction fuel with
  | zero =>
    intro data acc reqs hv
    rw [fetchLoop] at hv ⊢
    cases h : effLink data.nextLink with
    | none => rw [h] at hv; exact Or.inl hv
    | some link => rw [h] at hv; exact Or.inl hv
  | succ fuel' ih =>
    intro data acc reqs hv
    rw [fetchLoop] at hv ⊢
    cases h : effLink data.nextLink with
    | none => rw [h] at hv; exact Or.inl hv
    | some link =>
      rw [h] at hv
      cases hsl : server link with
      | failure =>
        simp only [fetch_data, hsl] at hv ⊢
        rcases List.mem_append.mp hv with hin | hlast
        · exact Or.inl hin
        · have hveq : v = link := List.mem_singleton.mp hlast
          subst hveq
          refine Or.inr ⟨?_, ?_⟩ <;> simp [List.getLast?_concat]
      | success body =>
        have hne : v ≠ link := by
          intro he; rw [he, hsl] at hf; exact HttpResponse.noConfusion hf
        cases body with
        | malformed =>
          simp only [fetch_data, hsl] at hv ⊢
          rcases List.mem_append.mp hv with hin | hlast
          · exact Or.inl hin
          · exact absurd (List.mem_singleton.mp hlast) hne
        | json page =>
          simp only [fetch_data, hsl] at hv ⊢
          cases hval : page.value with
          | none =>
            rw [hval] at hv
            rcases List.mem_append.mp hv with hin | hlast
            · exact Or.inl hin
            · exact absurd (List.mem_singleton.mp hlast) hne
          | some vs =>
            rw [hval] at hv
            rcases ih page (acc ++ vs) (reqs ++ [link]) hv with hin | hdone
            · rcases List.mem_append.mp hin with hin' | hlast
              · exact Or.inl hin'
              · exact absurd (List.mem_singleton.mp hlast) hne
            · exact Or.inr hdone

/-- C4: whenever some GET request in the fetch suffers a transport failure
or error HTTP status (`requests.raise_for_status`), the fetch ends in the
logged `sys.exit(1)` error branch of `fetch_data` (utils.py lines 62-64),
with no retry: the failing URL is the last request issued, so no further
requests follow it. -/
theorem fetch_failFast {α : Type} (server : Server α) (url : String)
    (fuel : Nat) (v : String) (hf : server v = .failure)
    (hv : v ∈ (fetch_sensorthingsapi server url fuel).requests) :
    (fetch_sensorthingsapi server url fuel).outcome = .exited ∧
    (fetch_sensorthingsapi server url fuel).requests.getLast? = some v := by
  rw [fetch_sensorthingsapi] at hv ⊢
  cases hsrv : server url with
  | failure =>
    simp only [fetch_data, hsrv] at hv ⊢
    have hveq : v = url := List.mem_singleton.mp hv
    subst hveq
    refine ⟨?_, ?_⟩ <;> simp
  | success body =>
    have hne : v ≠ url := by
      intro he; rw [he, hsrv] at hf; exact HttpResponse.noConfusion hf
    cases body with
    | malformed =>
      simp only [fetch_data, hsrv] at hv
      exact absurd (List.mem_singleton.mp hv) hne
    | json page =>
      simp only [fetch_data, hsrv] at hv ⊢
      cases hval : page.value with
      | none =>
        rw [hval] at hv
        exact absurd (List.mem_singleton.mp hv) hne
      | some vs =>
        rw [hval] at hv
        rcases fetchLoop_failFast server v hf fuel page vs [url] hv with hin | hdone
        · exact absurd (List.mem_singleton.mp hin) hne
        · exact hdone

/-- Witness for C4: on a server refusing every connection, the fetch exits
after the single failing request to the initial URL. -/
theorem fetch_failFast_witness :
    (fetch_sensorthingsapi srvFail "u" 3).outcome = .exited ∧
    (fetch_sensorthingsapi srvFail "u" 3).requests.getLast? = some "u" :=
  fetch_failFast srvFail "u" 3 "u" rfl (by decide)

/-- Helper: the loop only ever appends to its request trace. -/
theorem fetchLoop_requests_extend {α : Type} (server : Server α) :
    ∀ (fuel : Nat) (data : Page α) (acc : List α) (reqs : List String),
      ∃ tail, (fetchLoop server data acc reqs fuel).requests = reqs ++ tail := by
  intro fuel
  induction fuel with
  | zero =>
    intro data acc reqs
    refine ⟨[], ?_⟩
    rw [fetchLoop]
    cases h : effLink data.nextLink <;> simp
  | succ f ih =>
    intro data acc reqs
    rw [fetchLoop]
    cases h : effLink data.nextLink with
    | none => exact ⟨[], by simp⟩
    | some link =>
      cases hsl : server link with
      | failure => exact ⟨[link], by simp [fetch_data, hsl]⟩
      | success body =>
        cases body with
        | malformed => exact ⟨[link], by simp [fetch_data, hsl]⟩
        | json page =>
          cases hval : page.value with
          | none => exact ⟨[link], by simp [fetch_data, hsl, hval]⟩
          | some vs =>
            obtain ⟨tail, ht⟩ := ih page (acc ++ vs) (reqs ++ [link])
            refine ⟨link :: tail, ?_⟩
            simp only [fetch_data, hsl, hval]
            rw [ht]
            simp

/-- Helper: on a server that answers every URL with a well-formed page
carrying a non-empty next link, the loop exhausts any amount of fuel,
modelling the unbounded Python `while` loop. -/
theorem fetchLoop_alwaysLink_diverges {α : Type} (server : Server α)
    (H : ∀ u, ∃ vs link, server u = .success (.json ⟨some vs, some link⟩) ∧
         link ≠ "") :
    ∀ (fuel : Nat) (data : Page α) (acc : List α) (reqs : List String)
      (link : String),
      effLink data.nextLink = some link →
      (fetchLoop server data acc reqs fuel).outcome = .diverged := by
  intro fuel
  induction fuel with
  | zero =>
    intro data acc reqs link h
    rw [fetchLoop, h]
  | succ f ih =>
    intro data acc reqs link h
    obtain ⟨vs, link', hsrv, hne⟩ := H link
    rw [fetchLoop, h]
    simp only [fetch_data, hsrv]
    exact ih ⟨some vs, some link'⟩ (acc ++ vs) (reqs ++ [link]) link'
      (by simp [effLink, hne])

/-- C5: the loop continues exactly when `@iot.nextLink` is present and
non-empty and terminates returning the accumulator when it is absent or
empty; a finite next-link chain makes the fetch terminate normally, while a
server that returns a non-empty next link on every page makes it exhaust
any fuel (the Python loop, which has no iteration cap, never ends). -/
theorem fetch_pagination_control {α : Type} (server : Server α) :
    (∀ (data : Page α) (acc : List α) (reqs : List String) (fuel : Nat),
      effLink data.nextLink = none →
      fetchLoop server data acc reqs fuel = ⟨.ok acc, reqs⟩) ∧
    (∀ (data : Page α) (acc : List α) (reqs : List String) (fuel : Nat)
       (link : String),
      effLink data.nextLink = some link →
      ∃ tail, (fetchLoop server data acc reqs (fuel + 1)).requests
        = reqs ++ link :: tail) ∧
    (∀ (entries : List (String × List α × Option String)) (data : Page α)
       (acc : List α) (reqs : List String) (fuel : Nat),
      chainFrom server data.nextLink entries → entries.length ≤ fuel →
      ∃ l rs, fetchLoop server data acc reqs fuel = ⟨.ok l, rs⟩) ∧
    ((∀ u, ∃ vs link, server u = .success (.json ⟨some vs, some link⟩) ∧
        link ≠ "") →
      ∀ (url : String) (fuel : Nat),
        (fetch_sensorthingsapi server url fuel).outcome = .diverged) := by
  refine ⟨?_, ?_, ?_, ?_⟩
  · intro data acc reqs fuel h
    rw [fetchLoop, h]
  · intro data acc reqs fuel link h
    rw [fetchLoop, h]
    cases hsl : server link with
    | failure => exact ⟨[], by simp [fetch_data, hsl]⟩
    | success body =>
      cases body with
      | malformed => exact ⟨[], by simp [fetch_data, hsl]⟩
      | json page =>
        cases hval : page.value with
        | none => exact ⟨[], by simp [fetch_data, hsl, hval]⟩
        | some vs =>
          obtain ⟨tail, ht⟩ :=
            fetchLoop_requests_extend server fuel page (acc ++ vs) (reqs ++ [link])
          refine ⟨tail, ?_⟩
          simp only [fetch_data, hsl, hval]
          rw [ht]
          simp
  · intro entries data acc reqs fuel h hfuel
    exact ⟨acc ++ (entries.map (fun e => e.2.1)).flatten,
           reqs ++ entries.map (fun e => e.1),
           fetchLoop_chain server entries data acc reqs fuel h hfuel⟩
  · intro H url fuel
    obtain ⟨vs, link, hsrv, hne⟩ := H url
    rw [fetch_sensorthingsapi]
    simp only [fetch_data, hsrv]
    exact fetchLoop_alwaysLink_diverges server H fuel ⟨some vs, some link⟩ vs
      [url] link (by simp [effLink, hne])

/-- Witness for C5: on a page with no next link the loop returns the
accumulator untouched, and on the always-linking server the fetch exhausts
its fuel. -/
theorem fetch_pagination_control_witness :
    fetchLoop srvLoop ⟨some [1], none⟩ [1] ["a"] 5 = ⟨.ok [1], ["a"]⟩ ∧
    (fetch_sensorthingsapi srvLoop "s" 9).outcome = .diverged :=
  ⟨(fetch_pagination_control srvLoop).1 ⟨some [1], none⟩ [1] ["a"] 5 rfl,
   (fetch_pagination_control srvLoop).2.2.2
     (fun _ => ⟨[7], "n", rfl, by decide⟩) "s" 9⟩

/-- C6: over a finite page chain the returned collection's length is the
sum of the pages' `value` lengths (no duplicates or omissions are
introduced), and the request trace is exactly the chain's URL sequence:
request N+1 is the next link recorded in page N, so pages are requested
strictly sequentially. -/
theorem fetch_length_invariant {α : Type} (server : Server α) (url : String)
    (vs0 : List α) (next0 : Option String)
    (rest : List (String × List α × Option String)) (fuel : Nat)
    (h : chainStart server url ((url, vs0, next0) :: rest))
    (hfuel : rest.length ≤ fuel) :
    (∃ l, (fetch_sensorthingsapi server url fuel).outcome = .ok l ∧
      l.length
        = (((url, vs0, next0) :: rest).map (fun e => e.2.1.length)).sum) ∧
    (fetch_sensorthingsapi server url fuel).requests
      = ((url, vs0, next0) :: rest).map (fun e => e.1) := by
  obtain ⟨-, hsrv, hrest⟩ := h
  have hmain : fetch_sensorthingsapi server url fuel =
      ⟨.ok (vs0 ++ (rest.map (fun e => e.2.1)).flatten),
       [url] ++ rest.map (fun e => e.1)⟩ := by
    rw [fetch_sensorthingsapi]
    simp only [fetch_data, hsrv]
    exact fetchLoop_chain server rest ⟨some vs0, next0⟩ vs0 [url] fuel hrest hfuel
  refine ⟨⟨vs0 ++ (rest.map (fun e => e.2.1)).flatten, ?_, ?_⟩, ?_⟩
  · rw [hmain]
  · simp [List.length_flatten, List.map_map, Function.comp_def]
  · rw [hmain]
    simp

/-- Witness for C6: the two-page server yields 3 = 2 + 1 entities over the
request trace `["u1", "u2"]`. -/
theorem fetch_length_invariant_witness :
    (∃ l, (fetch_sensorthingsapi srv2 "u1" 1).outcome = .ok l ∧
      l.length = (([("u1", [1, 2], some "u2"),
                    ("u2", [3], (none : Option String))]).map
                    (fun e => e.2.1.length)).sum) ∧
    (fetch_sensorthingsapi srv2 "u1" 1).requests
      = ([("u1", [1, 2], some "u2"),
          ("u2", [3], (none : Option String))]).map (fun e => e.1) :=
  fetch_length_invariant srv2 "u1" [1, 2] (some "u2") [("u2", [3], none)] 1
    ⟨rfl, by decide, by decide, by decide, rfl⟩ (by decide)

/-- C7: the fetcher is deterministic: against servers giving identical
responses for every URL (a fixed static server queried twice), the whole
fetch result, outcome and request trace alike, is identical. -/
theorem fetch_deterministic {α : Type} (s1 s2 : Server α) (url : String)
    (fuel : Nat) (h : ∀ v, s1 v = s2 v) :
    fetch_sensorthingsapi s1 url fuel = fetch_sensorthingsapi s2 url fuel := by
  have hs : s1 = s2 := funext h
  rw [hs]

/-- Witness for C7: two identical queries of the single-page server agree. -/
theorem fetch_deterministic_witness :
    fetch_sensorthingsapi srv1 "a" 2 = fetch_sensorthingsapi srv1 "a" 2 :=
  fetch_deterministic srv1 srv1 "a" 2 (fun _ => rfl)

/-- Helper: if the loop returns normally, every URL it requested got a
well-formed JSON page with a `value` array, and the final list is the
accumulator followed by those pages' values in request order. -/
theorem fetchLoop_ok_sound {α : Type} (server : Server α) :
    ∀ (fuel : Nat) (data : Page α) (acc : List α) (reqs : List String)
      (l : List α) (rs : List String),
      fetchLoop server data acc reqs fuel = ⟨.ok l, rs⟩ →
      ∃ tail, rs = reqs ++ tail ∧
        (∀ v ∈ tail, ∃ page vs, server v = .success (.json page) ∧
          page.value = some vs) ∧
        l = acc ++ (tail.map (fun v => pageValues (server v))).flatten := by
  intro fuel
  induction fuel with
  | zero =>
    intro data acc reqs l rs h
    rw [fetchLoop] at h
    cases heff : effLink data.nextLink with
    | none =>
      rw [heff] at h
      simp only [FetchResult.mk.injEq, FetchOutcome.ok.injEq] at h
      obtain ⟨h1, h2⟩ := h
      exact ⟨[], by simp [h2], by simp, by simp [h1]⟩
    | some link =>
      rw [heff] at h
      simp at h
  | succ f ih =>
    intro data acc reqs l rs h
    rw [fetchLoop] at h
    cases heff : effLink data.nextLink with
    | none =>
      rw [heff] at h
      simp only [FetchResult.mk.injEq, FetchOutcome.ok.injEq] at h
      obtain ⟨h1, h2⟩ := h
      exact ⟨[], by simp [h2], by simp, by simp [h1]⟩
    | some link =>
      rw [heff] at h
      cases hsl : server link with
      | failure => simp [fetch_data, hsl] at h
      | success body =>
        cases body with
        | malformed => simp [fetch_data, hsl] at h
        | json page =>
          simp only [fetch_data, hsl] at h
          cases hval : page.value with
          | none =>
            rw [hval] at h
            simp at h
          | some vs =>
            rw [hval] at h
            obtain ⟨tail, htr, hgood, hl⟩ :=
              ih page (acc ++ vs) (reqs ++ [link]) l rs h
            refine ⟨link :: tail, ?_, ?_, ?_⟩
            · rw [htr]; simp
            · intro v hv
              rcases List.mem_cons.mp hv with hveq | hvtail
              · exact hveq ▸ ⟨page, vs, hsl, hval⟩
              · exact hgood v hvtail
            · rw [hl]
              simp [pageValues, hsl, hval]

/-- C10: the fetch is all-or-nothing: whenever it returns normally with a
list, every URL in its request trace got a well-formed page with a `value`
array (no request hit the `sys.exit(1)` branch or an uncaught exception),
the list is the complete concatenation of those pages' values in request
order starting from the initial URL, and a normal return of `fetch_data`
always carries a parsed response body even though `response` is initialised
to `None`. -/
theorem fetch_allOrNothing {α : Type} (server : Server α) (url : String)
    (fuel : Nat) (l : List α) (rs : List String)
    (h : fetch_sensorthingsapi server url fuel = ⟨.ok l, rs⟩) :
    (∀ v ∈ rs, ∃ page vs, server v = .success (.json page) ∧
      page.value = some vs) ∧
    l = (rs.map (fun v => pageValues (server v))).flatten ∧
    rs.head? = some url ∧
    (∀ (r : String) (page : Page α),
      fetch_data server r = .ok page → server r = .success (.json page)) := by
  have hdata : ∀ (r : String) (page : Page α),
      fetch_data server r = .ok page → server r = .success (.json page) := by
    intro r page hfd
    rw [fetch_data] at hfd
    cases hr : server r with
    | failure => rw [hr] at hfd; exact absurd hfd (by simp)
    | success body =>
      cases body with
      | malformed => rw [hr] at hfd; exact absurd hfd (by simp)
      | json q =>
        rw [hr] at hfd
        simp only [FetchDataResult.ok.injEq] at hfd
        rw [hfd]
  rw [fetch_sensorthingsapi] at h
  cases hsrv : server url with
  | failure => simp [fetch_data, hsrv] at h
  | success body =>
    cases body with
    | malformed => simp [fetch_data, hsrv] at h
    | json page =>
      simp only [fetch_data, hsrv] at h
      cases hval : page.value with
      | none => rw [hval] at h; simp at h
      | some vs =>
        rw [hval] at h
        obtain ⟨tail, htr, hgood, hl⟩ :=
          fetchLoop_ok_sound server fuel page vs [url] l rs h
        have hrs : rs = url :: tail := by simpa using htr
        refine ⟨?_, ?_, ?_, hdata⟩
        · intro v hv
          rw [hrs] at hv
          rcases List.mem_cons.mp hv with hveq | hvtail
          · exact hveq ▸ ⟨page, vs, hsrv, hval⟩
          · exact hgood v hvtail
        · rw [hl, hrs]
          simp [pageValues, hsrv, hval]
        · rw [hrs]; rfl

/-- Witness for C10: the two-page server returns normally, so both
requested URLs carry well-formed pages and `[1, 2, 3]` is their complete
concatenation. -/
theorem fetch_allOrNothing_witness :
    (∀ v ∈ ["u1", "u2"], ∃ page vs, srv2 v = .success (.json page) ∧
      page.value = some vs) ∧
    [1, 2, 3] = ((["u1", "u2"]).map (fun v => pageValues (srv2 v))).flatten ∧
    (["u1", "u2"]).head? = some "u1" ∧
    (∀ (r : String) (page : Page Nat),
      fetch_data srv2 r = .ok page → srv2 r = .success (.json page)) :=
  fetch_allOrNothing srv2 "u1" 5 [1, 2, 3] ["u1", "u2"] (by decide)

/-- C8: `plots fetch` exits with code 1 before any fetch work exactly when
`--config` is given together with `--trial-id` or `--sensorthingsapi-url`
(mutually exclusive inputs), or when `--config` is absent and the two
discrete parameters are not both given (missing required inputs). -/
theorem fetch_plots_validation
    (trial_id sensorthingsapi_url config_file : Option String) :
    fetch_plots trial_id sensorthingsapi_url config_file = .configError ↔
      ((truthy config_file = true ∧
        (truthy trial_id = true ∨ truthy sensorthingsapi_url = true)) ∨
       (truthy config_file = false ∧
        ¬(truthy trial_id = true ∧ truthy sensorthingsapi_url = true))) := by
  cases hc : truthy config_file <;> cases ht : truthy trial_id <;>
    cases hu : truthy sensorthingsapi_url <;>
    simp [fetch_plots, hc, ht, hu]

/-- C9: the `Logger` class is a singleton: constructing it again after a
construction returns the same instance id and leaves the state untouched
(so the `__init__` body runs at most once, and the class is marked
initialised after the first construction), and `Logger.get_logger` called
again with the same name returns the identical cached logger id without
changing the state. -/
theorem logger_singleton (s : LoggerState) (name : String) :
    loggerConstruct (loggerConstruct s).2
      = ((loggerConstruct s).1, (loggerConstruct s).2) ∧
    ((loggerConstruct s).2).initDone = true ∧
    Logger.get_logger (Logger.get_logger s name).2 name
      = Logger.get_logger s name := by
  refine ⟨?_, ?_, ?_⟩
  · cases hi : s.inst <;> cases hd : s.initDone <;>
      simp [loggerConstruct, loggerNew, loggerInit, hi, hd]
  · cases hi : s.inst <;> cases hd : s.initDone <;>
      simp [loggerConstruct, loggerNew, loggerInit, hi, hd]
  · cases hl : lookupName s.loggers name with
    | some i => simp [Logger.get_logger, hl]
    | none =>
      cases hm : lookupName s.moduleLoggers name <;>
        simp [Logger.get_logger, logging_getLogger, hl, hm, lookupName]

end Phenocover
